import Mathlib

/-!
# Verification of the ARDF decoder (`hystorian/io/ardf_files.py`)

Shallow embedding of the ARDF container decoder.  The file is modelled as a
list of bytes (`Nat` values below 256) with an explicit cursor, mirroring the
Python file object:

* `pyRead` models `fid.read(n)` (short reads at end of file are silent,
  `read(-1)` reads to the end, other negative counts raise);
* `readExact` models `struct.unpack(...)` on `fid.read(n)`, which raises
  `struct.error` unless exactly `n` bytes were obtained;
* `seekAbs`/`seekRel` model `fid.seek`, which raises on a negative target.

Failure (any Python exception) is modelled by `Option`/`Except` results.
Record tags are kept as their raw 4-byte values; comparing them with the
4-character ASCII constants of the source coincides with the source's
`smart_decode`-then-compare because the constants are NUL-free ASCII.

Higher-level orchestration (`getARDFdata`'s per-point loop, `readARDF`'s
scan-flag derivation, `extract_ardf`'s channel assembly) is embedded at record
granularity: the byte-level record readers are abstracted into per-point
records, with `Option` capturing any reader failure.
-/

/-- Little-endian value of a byte list (least significant byte first). -/
def leNat : List Nat → Nat
  | [] => 0
  | b :: rest => b + 256 * leNat rest

/-- Read a 32-bit unsigned value as a signed integer (two's complement),
as `struct.unpack` with format `"i"` does. -/
def toI32 (v : Nat) : Int :=
  if v < 2 ^ 31 then (v : Int) else (v : Int) - 2 ^ 32

/-- An open binary file: its bytes and the current cursor position. -/
structure Fid where
  data : List Nat
  pos : Nat
deriving Repr, DecidableEq

/-- Python `fid.read(n)`: returns up to `n` bytes from the cursor (a short read
at end of file returns fewer bytes without error); `read(-1)` reads to the end
of the file, and any other negative count raises `ValueError`. -/
def pyRead (s : Fid) (n : Int) : Option (List Nat × Fid) :=
  if n < 0 then
    if n = -1 then
      some (s.data.drop s.pos,
        { s with pos := s.pos + (s.data.drop s.pos).length })
    else none
  else
    some ((s.data.drop s.pos).take n.toNat,
      { s with pos := s.pos + ((s.data.drop s.pos).take n.toNat).length })

/-- `struct.unpack` on `fid.read(n)`: raises `struct.error` unless exactly `n`
bytes remain, so the model fails on a short read. -/
def readExact (s : Fid) (n : Nat) : Option (List Nat × Fid) :=
  if ((s.data.drop s.pos).take n).length = n then
    some ((s.data.drop s.pos).take n, { s with pos := s.pos + n })
  else none

/-- `read_convert(fid, 4, "I")`: a 4-byte little-endian unsigned read. -/
def readU32 (s : Fid) : Option (Nat × Fid) :=
  (readExact s 4).map (fun r => (leNat r.1, r.2))

/-- `read_convert(fid, 8, "Q")`: an 8-byte little-endian unsigned read. -/
def readU64 (s : Fid) : Option (Nat × Fid) :=
  (readExact s 8).map (fun r => (leNat r.1, r.2))

/-- Python absolute `fid.seek(off)`: a negative offset raises `ValueError`. -/
def seekAbs (s : Fid) (off : Int) : Option Fid :=
  if off < 0 then none else some { s with pos := off.toNat }

/-- Python relative `fid.seek(d, 1)`: fails if the resulting absolute
position is negative. -/
def seekRel (s : Fid) (d : Int) : Option Fid :=
  seekAbs s ((s.pos : Int) + d)

/-- Split a byte string into consecutive 4-byte little-endian signed integers,
as `struct.unpack(f"{n}i", ...)` does. -/
def chunks4 : List Nat → List Int
  | a :: b :: c :: d :: rest => toI32 (leNat [a, b, c, d]) :: chunks4 rest
  | _ => []

/-! ### 4-byte record tags (ASCII) -/

def tagARDF : List Nat := [65, 82, 68, 70]
def tagFTOC : List Nat := [70, 84, 79, 67]
def tagTTOC : List Nat := [84, 84, 79, 67]
def tagIMAG : List Nat := [73, 77, 65, 71]
def tagVOLM : List Nat := [86, 79, 76, 77]
def tagNEXT : List Nat := [78, 69, 88, 84]
def tagTHMB : List Nat := [84, 72, 77, 66]
def tagNSET : List Nat := [78, 83, 69, 84]
def tagIBOX : List Nat := [73, 66, 79, 88]
def tagTOFF : List Nat := [84, 79, 70, 70]
def tagVOFF : List Nat := [86, 79, 70, 70]
def tagVTOC : List Nat := [86, 84, 79, 67]
def tagIDAT : List Nat := [73, 68, 65, 84]
def tagVSET : List Nat := [86, 83, 69, 84]
def tagVNAM : List Nat := [86, 78, 65, 77]
def tagVDAT : List Nat := [86, 68, 65, 84]
def tagXDAT : List Nat := [88, 68, 65, 84]

/-- `local_readARDFpointer(fid, address)`: seek when `address != -1`, then read
the fixed 16-byte record header `(checkCRC32, sizeBytes, typePnt, miscNum)`. -/
def local_readARDFpointer (s : Fid) (address : Int) :
    Option ((Nat × Nat × List Nat × Nat) × Fid) := do
  let s0 ← if address ≠ -1 then seekAbs s address else some s
  let (crc, s1) ← readU32 s0
  let (size, s2) ← readU32 s1
  let (tg, s3) ← pyRead s2 4
  let (misc, s4) ← readU32 s3
  some ((crc, size, tg, misc), s4)

/-! ## `smart_decode` (claim C9)

The UTF-8 decoder below implements the strict decoding Python's
`bytes.decode("UTF-8")` performs (rejecting continuation errors, overlong
forms, surrogates and code points above `0x10FFFF`); it returns the list of
decoded code points.  The `chardet`-based second attempt of the source calls
into an external library, so it is abstracted as a parameter `cd`: `cd b =
some cps` models a successful `b.decode(chardet.detect(b)["encoding"])` and
`cd b = none` models that path raising (e.g. `chardet` detecting no encoding,
making `decode(None)` raise `TypeError`). -/

/-- A UTF-8 continuation byte. -/
def isCont (b : Nat) : Bool := 128 ≤ b && b < 192

/-- Strict UTF-8 decoding of a byte list into code points
(Python `bytes.decode("UTF-8")`); `none` models `UnicodeDecodeError`. -/
def utf8DecodeList : List Nat → Option (List Nat)
  | [] => some []
  | b :: rest =>
    if b < 128 then (utf8DecodeList rest).map (fun cs => b :: cs)
    else if 194 ≤ b && b ≤ 223 then
      match rest with
      | c :: rest2 =>
        if isCont c then
          (utf8DecodeList rest2).map (fun cs => ((b - 192) * 64 + (c - 128)) :: cs)
        else none
      | [] => none
    else if b = 224 then
      match rest with
      | c :: d :: rest2 =>
        if (160 ≤ c && c < 192) && isCont d then
          (utf8DecodeList rest2).map
            (fun cs => ((b - 224) * 4096 + (c - 128) * 64 + (d - 128)) :: cs)
        else none
      | _ => none
    else if (225 ≤ b && b ≤ 236) || b = 238 || b = 239 then
      match rest with
      | c :: d :: rest2 =>
        if isCont c && isCont d then
          (utf8DecodeList rest2).map
            (fun cs => ((b - 224) * 4096 + (c - 128) * 64 + (d - 128)) :: cs)
        else none
      | _ => none
    else if b = 237 then
      match rest with
      | c :: d :: rest2 =>
        if (128 ≤ c && c < 160) && isCont d then
          (utf8DecodeList rest2).map
            (fun cs => ((b - 224) * 4096 + (c - 128) * 64 + (d - 128)) :: cs)
        else none
      | _ => none
    else if b = 240 then
      match rest with
      | c :: d :: e :: rest2 =>
        if ((144 ≤ c && c < 192) && isCont d) && isCont e then
          (utf8DecodeList rest2).map
            (fun cs =>
              ((b - 240) * 262144 + (c - 128) * 4096 + (d - 128) * 64 + (e - 128)) :: cs)
        else none
      | _ => none
    else if 241 ≤ b && b ≤ 243 then
      match rest with
      | c :: d :: e :: rest2 =>
        if (isCont c && isCont d) && isCont e then
          (utf8DecodeList rest2).map
            (fun cs =>
              ((b - 240) * 262144 + (c - 128) * 4096 + (d - 128) * 64 + (e - 128)) :: cs)
        else none
      | _ => none
    else if b = 244 then
      match rest with
      | c :: d :: e :: rest2 =>
        if ((128 ≤ c && c < 144) && isCont d) && isCont e then
          (utf8DecodeList rest2).map
            (fun cs =>
              ((b - 240) * 262144 + (c - 128) * 4096 + (d - 128) * 64 + (e - 128)) :: cs)
        else none
      | _ => none
    else none

/-- Result of `smart_decode`: either a decoded text (list of code points with
NULs stripped on the decode paths) or the raw, unmodified byte string that the
final `except` branch returns. -/
inductive SDResult where
  | txt : List Nat → SDResult
  | raw : List Nat → SDResult
deriving Repr, DecidableEq

/-- `smart_decode(b)`: try UTF-8 and strip NULs; on failure try the
`chardet`-detected encoding (`cd`) and strip NULs; if that also fails,
return the byte string `b` itself, unmodified. -/
def smart_decode (cd : List Nat → Option (List Nat)) (b : List Nat) : SDResult :=
  match utf8DecodeList b with
  | some cps => SDResult.txt (cps.filter (fun c => c ≠ 0))
  | none =>
    match cd b with
    | some cps => SDResult.txt (cps.filter (fun c => c ≠ 0))
    | none => SDResult.raw b

/-- Whether a `smart_decode` result still contains a NUL. -/
def resultHasNul : SDResult → Bool
  | SDResult.txt cps => cps.contains 0
  | SDResult.raw bs => bs.contains 0

/-- A `chardet` fallback that always fails (e.g. `detect` returns no
encoding and `decode(None)` raises `TypeError`). -/
def cdFail : List Nat → Option (List Nat) := fun _ => none

/-! ## Record-level line extraction: `getARDFdata` (claims C2, C5)

One scan point is `local_readVSET`, `local_readVNAM`, `numbChannels` times
`local_readVDAT`, then `local_readXDAT`.  For the orchestration claims we
abstract one such successfully decoded group into a `PtRec` (the fields the
loop body of `getARDFdata` actually stores); `none` in the per-line record
stream models any of those readers raising (tag mismatch or truncation). -/

/-- The data of one scan point as consumed by `getARDFdata`'s loop body:
the `VSET` fields, the `VNAM` name (an identifier), the per-channel `VDAT`
waveforms, and the last channel's `pnt0/pnt1/pnt2` positional tags. -/
structure PtRec where
  force : Nat
  line : Nat
  point : Nat
  prev : Nat
  next : Nat
  nameId : Nat
  y : List (List Int)
  pnt0 : Nat
  pnt1 : Nat
  pnt2 : Nat
deriving Repr, DecidableEq

/-- The accumulating dictionary `G` of `getARDFdata`. -/
structure GData where
  numbForce : List Nat
  numbLine : List Nat
  numbPoint : List Nat
  locPrev : List Nat
  locNext : List Nat
  names : List Nat
  y : List (List (List Int))
  pnt0 : List Nat
  pnt1 : List Nat
  pnt2 : List Nat
deriving Repr, DecidableEq

def gEmpty : GData :=
  { numbForce := [], numbLine := [], numbPoint := [], locPrev := [], locNext := [],
    names := [], y := [], pnt0 := [], pnt1 := [], pnt2 := [] }

/-- The `append` statements of `getARDFdata`'s loop body. -/
def gAppend (G : GData) (r : PtRec) : GData :=
  { numbForce := G.numbForce ++ [r.force]
    numbLine := G.numbLine ++ [r.line]
    numbPoint := G.numbPoint ++ [r.point]
    locPrev := G.locPrev ++ [r.prev]
    locNext := G.locNext ++ [r.next]
    names := G.names ++ [r.nameId]
    y := G.y ++ [r.y]
    pnt0 := G.pnt0 ++ [r.pnt0]
    pnt1 := G.pnt1 ++ [r.pnt1]
    pnt2 := G.pnt2 ++ [r.pnt2] }

/-- The `G[key].reverse()` block of `getARDFdata`. -/
def gReverse (G : GData) : GData :=
  { numbForce := G.numbForce.reverse
    numbLine := G.numbLine.reverse
    numbPoint := G.numbPoint.reverse
    locPrev := G.locPrev.reverse
    locNext := G.locNext.reverse
    names := G.names.reverse
    y := G.y.reverse
    pnt0 := G.pnt0.reverse
    pnt1 := G.pnt1.reverse
    pnt2 := G.pnt2.reverse }

/-- One iteration of `getARDFdata`'s `for _ in range(numbPoints)` loop: append
the point's data, then — since the `if G["numbPoint"][0] != 0` block is inside
the loop — reverse every collection whenever the current first element of
`G["numbPoint"]` is non-zero. -/
def gStep (G : GData) (r : PtRec) : GData :=
  let G1 := gAppend G r
  if G1.numbPoint.headD 0 ≠ 0 then gReverse G1 else G1

/-- `getARDFdata`'s point loop over the records of one line (all reads
succeeding), starting from the empty `G`. -/
def pointFold (recs : List PtRec) : GData :=
  recs.foldl gStep gEmpty

/-- What the specification describes: collect all points in physical order and
reverse every collection exactly once, at the end, when the first recorded
point's `point` field is non-zero. -/
def specPointOrder (recs : List PtRec) : GData :=
  let G := recs.foldl gAppend gEmpty
  match recs with
  | r :: _ => if r.point ≠ 0 then gReverse G else G
  | [] => G

/-- Python list indexing with negative wrap-around: `l[i]` for `i ≥ 0` is the
`i`-th element, `l[-k]` is the `k`-th element from the end; out of range is an
`IndexError` (`none`). -/
def pyGetNat (l : List Nat) (i : Int) : Option Nat :=
  if 0 ≤ i then l[i.toNat]?
  else if i.natAbs ≤ l.length then l[l.length - i.natAbs]? else none

/-- `getARDFdata`'s point loop reading `numbPoints` records from the stream of
one line: a missing record models `struct.error` at end of file, a `none`
record models a reader raising (e.g. `local_checkType`). -/
def runPoints : Nat → List (Option PtRec) → GData → Except Unit GData
  | 0, _, G => Except.ok G
  | _ + 1, [], _ => Except.error ()
  | _ + 1, none :: _, _ => Except.error ()
  | k + 1, some r :: rest, G => runPoints k rest (gStep G r)

/-- Result of one `getARDFdata` call together with the final state of the file
handle it opened (`handleOpen = true` means the function finished — returned
or raised — without calling `fid.close()`). -/
structure LineResult where
  res : Except Unit GData
  handleOpen : Bool
deriving Repr

/-- `getARDFdata(FN, getLine, trace, fileStruct)` at record granularity, with
the relevant parts of the already-parsed `fileStruct` passed explicitly.
The function opens its file handle, resolves the physical line through
`linPointer` (Python negative indexing included, since `adjLine` can be
negative when `scanDown` is set), returns the empty `G` after closing the
handle when the line pointer is 0, otherwise reads `numbPoints` point groups
and closes the handle just before the successful return.  There is no
`try/finally` in the source, so an error leaves the handle open. -/
def getARDFdata (numbLines numbPoints : Nat) (scanDown : Bool) (linPointer : List Nat)
    (lineRecs : Nat → List (Option PtRec)) (getLine : Nat) : LineResult :=
  let adjLine : Int :=
    if scanDown then (numbLines : Int) - (getLine : Int) - 1 else (getLine : Int)
  match pyGetNat linPointer adjLine with
  | none => { res := Except.error (), handleOpen := true }
  | some 0 => { res := Except.ok gEmpty, handleOpen := false }
  | some loc =>
    match runPoints numbPoints (lineRecs loc) gEmpty with
    | Except.ok G => { res := Except.ok G, handleOpen := false }
    | Except.error e => { res := Except.error e, handleOpen := true }

/-- Whether an `Except` result is an error. -/
def isErr : Except Unit GData → Bool
  | Except.error _ => true
  | Except.ok _ => false

/-! ## Scan-direction flags in `readARDF` (claim C3) -/

/-- The `VSET` fields the flag derivation looks at. -/
structure VSetF where
  line : Nat
  point : Nat
deriving Repr, DecidableEq

/-- `scanDown` as computed by `readARDF` from the `VSET` of row `r`. -/
def scanOf (vs : VSetF) (r : Nat) : Nat := if vs.line ≠ r then 1 else 0

/-- `trace` as computed by `readARDF` from a `VSET`. -/
def traceOf (vs : VSetF) : Nat := if vs.point = 0 then 1 else 0

/-- The `for r in range(lines)` loop of `readARDF` that derives the volume's
`scanDown` and `trace`: every row with a non-zero line pointer overwrites both
flags from that row's first `VSET` (`vsetAt r` is the `VSET` found at file
offset `linPointer[r]`).  `none` models the `IndexError` raised when
`linPointer` is shorter than `lines`; absent flags (no non-empty row seen yet)
are `none` components. -/
def flagsLoop (linPointer : List Nat) (vsetAt : Nat → VSetF) :
    Nat → Nat → Option Nat × Option Nat → Option (Option Nat × Option Nat)
  | _, 0, fl => some fl
  | r, k + 1, fl =>
    match linPointer[r]? with
    | none => none
    | some loc =>
      if loc ≠ 0 then
        flagsLoop linPointer vsetAt (r + 1) k (some (scanOf (vsetAt r) r), some (traceOf (vsetAt r)))
      else
        flagsLoop linPointer vsetAt (r + 1) k fl

/-- The volume's `(scanDown, trace)` pair as `readARDF` leaves it. -/
def deriveFlags (lines : Nat) (linPointer : List Nat) (vsetAt : Nat → VSetF) :
    Option (Option Nat × Option Nat) :=
  flagsLoop linPointer vsetAt 0 lines (none, none)

/-- The index of the last row `r < lines` with a non-zero line pointer. -/
def lastNonEmptyRow (lines : Nat) (linPointer : List Nat) : Option Nat :=
  ((List.range lines).filter (fun r => linPointer.getD r 0 ≠ 0)).getLast?

/-! ## Per-image text records in `extractImages` (claim C6) -/

/-- The local note slots of one image iteration in `extractImages`. -/
structure ImSlots where
  thumb : Option Nat
  note : Option Nat
  quick : Option Nat
deriving Repr, DecidableEq

def imEmpty : ImSlots := { thumb := none, note := none, quick := none }

/-- The `for r in range(numbImagText)` loop of `extractImages` for image
index `n`: when the image has more than one text record (or `n == 1`),
occurrence `r = 1` becomes the thumbnail note, `r = 2` the per-image note,
`r = 3` the quick note, and any other `r` — including `r = 0`, which is always
the first iteration — raises `ValueError`; otherwise the single record is
parsed as the per-image note.  `notes r` stands for the text read at the
image's `r`-th text pointer; an `Except.error r` result is the raised error
carrying the offending occurrence index. -/
def imTextLoop (n numbImagText : Nat) (notes : Nat → Nat) :
    Nat → Nat → ImSlots → Except Nat ImSlots
  | _, 0, sl => Except.ok sl
  | r, k + 1, sl =>
    if numbImagText > 1 ∨ n = 1 then
      if r = 1 then imTextLoop n numbImagText notes (r + 1) k { sl with thumb := some (notes r) }
      else if r = 2 then imTextLoop n numbImagText notes (r + 1) k { sl with note := some (notes r) }
      else if r = 3 then imTextLoop n numbImagText notes (r + 1) k { sl with quick := some (notes r) }
      else Except.error r
    else imTextLoop n numbImagText notes (r + 1) k { sl with note := some (notes r) }

/-- The whole text-record scan of one image in `extractImages`. -/
def extractImagesTextScan (n numbImagText : Nat) (notes : Nat → Nat) : Except Nat ImSlots :=
  imTextLoop n numbImagText notes 0 numbImagText imEmpty

/-! ## Byte-level point-record readers (claims C8, C10) -/

/-- The fields of a `VSET` record. -/
structure VSetB where
  force : Nat
  line : Nat
  point : Nat
  prev : Nat
  next : Nat
deriving Repr, DecidableEq

/-- `local_readVSET(fid, address)`: seek to `address` when it is not `-1`,
read and validate a `VSET` header, then read `force`, `line`, `point`, a
discarded word, and the two 8-byte `prev`/`next` pointers. -/
def local_readVSET (s : Fid) (address : Int) : Option (VSetB × Fid) := do
  let s0 ← if address ≠ -1 then seekAbs s address else some s
  let ((_, _, tg, _), s1) ← local_readARDFpointer s0 (-1)
  if tg = tagVSET then do
    let (force, s2) ← readU32 s1
    let (line, s3) ← readU32 s2
    let (point, s4) ← readU32 s3
    let (_, s5) ← readU32 s4
    let (prev, s6) ← readU64 s5
    let (next, s7) ← readU64 s6
    some ({ force := force, line := line, point := point, prev := prev, next := next }, s7)
  else none

/-- The fields of a `VNAM` record. -/
structure VNamB where
  force : Nat
  line : Nat
  point : Nat
  sizeText : Nat
  name : List Nat
deriving Repr, DecidableEq

/-- `local_readVNAM(fid, address)`: the source executes `fid.seek(-1)` — an
absolute seek to the negative offset −1, not a seek to `address` — whenever
`address != -1`, which raises before any byte of the record is read.  With
`address == -1` it reads and validates a `VNAM` header, three count fields,
the name length and name bytes, then skips the declared slack
(`lastSize - 16 - sizeText - 16`, a possibly negative Python value). -/
def local_readVNAM (s : Fid) (address : Int) : Option (VNamB × Fid) := do
  let s0 ← if address ≠ -1 then seekAbs s (-1) else some s
  let ((_, lastSize, tg, _), s1) ← local_readARDFpointer s0 (-1)
  if tg = tagVNAM then do
    let (force, s2) ← readU32 s1
    let (line, s3) ← readU32 s2
    let (point, s4) ← readU32 s3
    let (sizeText, s5) ← readU32 s4
    let (nm, s6) ← pyRead s5 (sizeText : Int)
    let (_, s7) ← pyRead s6 ((lastSize : Int) - 16 - (sizeText : Int) - 16)
    some ({ force := force, line := line, point := point, sizeText := sizeText, name := nm }, s7)
  else none

/-- `local_readXDAT(fid, address)`: like `local_readVNAM`, the source executes
`fid.seek(-1)` when `address != -1`, raising immediately.  With `address == -1`
it reads a header; an `XDAT` tag skips the record body, a `VSET` tag rewinds
the cursor by 16 bytes so the caller re-reads the header, anything else
raises. -/
def local_readXDAT (s : Fid) (address : Int) : Option Fid := do
  let s0 ← if address ≠ -1 then seekAbs s (-1) else some s
  let ((_, lastSize, tg, _), s1) ← local_readARDFpointer s0 (-1)
  if tg = tagXDAT then seekRel s1 ((lastSize : Int) - 16)
  else if tg = tagVSET then seekRel s1 (-16)
  else none

/-- The fields of a `VDAT` record. -/
structure VDatB where
  force : Nat
  line : Nat
  point : Nat
  sizeData : Nat
  forceType : Nat
  pnt0 : Nat
  pnt1 : Nat
  pnt2 : Nat
  ddata : List Int
deriving Repr, DecidableEq

/-- `local_readVDAT(fid, address)`: seek when `address != -1`, read and
validate a `VDAT` header, read the eight 4-byte fields `force, line, point,
sizeData, forceType, pnt0, pnt1, pnt2`, skip 8 reserved bytes (a plain
`fid.read(8)`, silent on a short read), then unpack `sizeData` signed 32-bit
integers as the waveform. -/
def local_readVDAT (s : Fid) (address : Int) : Option (VDatB × Fid) := do
  let s0 ← if address ≠ -1 then seekAbs s address else some s
  let ((_, _, tg, _), s1) ← local_readARDFpointer s0 (-1)
  if tg = tagVDAT then do
    let (force, s2) ← readU32 s1
    let (line, s3) ← readU32 s2
    let (point, s4) ← readU32 s3
    let (sizeData, s5) ← readU32 s4
    let (forceType, s6) ← readU32 s5
    let (pnt0, s7) ← readU32 s6
    let (pnt1, s8) ← readU32 s7
    let (pnt2, s9) ← readU32 s8
    let (_, s10) ← pyRead s9 8
    let (bs, s11) ← readExact s10 (4 * sizeData)
    some ({ force := force, line := line, point := point, sizeData := sizeData,
            forceType := forceType, pnt0 := pnt0, pnt1 := pnt1, pnt2 := pnt2,
            ddata := chunks4 bs }, s11)
  else none

/-! ## Channel assembly in `extract_ardf` (claims C1, C4)

`extract_ardf` builds, per volume channel and per sweep direction, a nested
list `channel_result[key]` by calling `getARDFdata(filename, point, tracetype,
F["FileStructure"])` for `point in range(points)` — the loop variable is
passed as the *line* argument — extracting channel `idx` of each returned
point (`result_line`), NaN-padding to the running maximum waveform length, and
finally re-padding rows `0 .. lines-1` to the final maximum.

The interface to `getARDFdata` is abstracted into `fetch : Nat → Option row`:
`fetch g` is the channel-sliced list of waveforms of the line obtained for
`getLine = g`, and `none` models any exception on that call (an `IndexError`
from `linPointer`, a reader error, or the `KeyError` from `result_line["y"]`
when the line pointer is 0 and `getARDFdata` returned `{}`).  `fetchOf` builds
such a fetch from the volume data the way `getARDFdata` resolves lines.
NaN is modelled as `none` in an `Option Int` sample. -/

/-- Largest element of a list of lengths (Python `max` on a non-empty list). -/
def listMax (l : List Nat) : Nat := l.foldl max 0

/-- Right-pad a waveform with NaN (`none`) up to length `m`
(`list(elem) + [np.nan] * (m - len(elem))`, with Python's empty repetition
for a non-positive count). -/
def padCell (m : Nat) (w : List (Option Int)) : List (Option Int) :=
  w ++ List.replicate (m - w.length) none

/-- Line resolution of `getARDFdata` as seen by `extract_ardf`'s loop:
`adjLine` (negative when `scanDown` and `getLine ≥ numbLines`, hence the
Python wrap-around of `pyGetNat`), then the line pointer; pointer 0 makes the
overall call fail (`getARDFdata` returns `{}` and `extract_ardf` then hits a
`KeyError`), otherwise `lineAt loc` is the channel-sliced decoded line at file
offset `loc`. -/
def fetchOf (scanDown : Bool) (numbLines : Nat) (linPointer : List Nat)
    (lineAt : Nat → Option (List (List Int))) (getLine : Nat) :
    Option (List (List Int)) :=
  let adjLine : Int :=
    if scanDown then (numbLines : Int) - (getLine : Int) - 1 else (getLine : Int)
  match pyGetNat linPointer adjLine with
  | none => none
  | some 0 => none
  | some loc => lineAt loc

/-- The running-maximum update of `extract_ardf`
(`length = max(map(len, result_line)); if length > max_size: max_size = length`). -/
def newMax (m : Nat) (row : List (List Int)) : Nat :=
  if listMax (row.map List.length) > m then listMax (row.map List.length) else m

/-- Pad every waveform of a row to the current maximum
(`list(elem) + [np.nan] * (max_size - len(elem))`). -/
def padRow (m1 : Nat) (row : List (List Int)) : List (List (Option Int)) :=
  row.map (fun w => padCell m1 (w.map some))

/-- The collection loop `for point in range(points)` of `extract_ardf` for one
channel/direction: fetch the line for `getLine = p`, take the maximum waveform
length (`max` of an empty sequence raises, hence the `row = []` failure),
update the running maximum, pad the row's waveforms to it, and append the
row. -/
def collectRows (fetch : Nat → Option (List (List Int))) :
    Nat → Nat → Nat → List (List (List (Option Int))) →
    Option (List (List (List (Option Int))) × Nat)
  | _, 0, m, acc => some (acc, m)
  | p, k + 1, m, acc =>
    match fetch p with
    | none => none
    | some row =>
      if row = [] then none
      else collectRows fetch (p + 1) k (newMax m row) (acc ++ [padRow (newMax m row) row])

/-- The inner re-padding loop `for point in range(points)` over one row:
index `j` out of range is an `IndexError`; a cell shorter than `m` is
extended with NaN. -/
def repadRow (m : Nat) : Nat → Nat → List (List (Option Int)) →
    Option (List (List (Option Int)))
  | _, 0, row => some row
  | j, k + 1, row =>
    match row[j]? with
    | none => none
    | some c =>
      repadRow m (j + 1) k (row.set j (if c.length < m then padCell m c else c))

/-- The outer re-padding loop `for line in range(lines)`: row index out of
range is an `IndexError` (this is what happens when `lines > points`, since
only `points` rows were collected). -/
def repadRows (points m : Nat) : Nat → Nat → List (List (List (Option Int))) →
    Option (List (List (List (Option Int))))
  | _, 0, rows => some rows
  | i, k + 1, rows =>
    match rows[i]? with
    | none => none
    | some row =>
      match repadRow m 0 points row with
      | none => none
      | some row2 => repadRows points m (i + 1) k (rows.set i row2)

/-- One channel/direction of `extract_ardf`'s volume assembly: collect
`points` rows (the loop variable being passed to `getARDFdata` as the line
index), then re-pad rows `0 .. lines-1`; returns the nested list that
`np.array` is applied to, together with the final running maximum
`max_size`.  `m0` is the incoming value of `max_size` (0 for the first
direction of a channel; the variable is shared between the two directions). -/
def assembleDir (lines points : Nat) (fetch : Nat → Option (List (List Int)))
    (m0 : Nat) : Option (List (List (List (Option Int))) × Nat) :=
  match collectRows fetch 0 points m0 [] with
  | none => none
  | some (rows, m) =>
    match repadRows points m 0 lines rows with
    | none => none
    | some rows2 => some (rows2, m)

/-! ## `local_readTOC` (claim C7)

The table-of-contents reader.  The Python function accumulates into a dict
whose bucket keys exist only for the table class selected by the requested
type, and into loop-local variables (`lastPointer`, `lastIndex`, ...) that are
unbound until first assigned.  `Option` fields model both: an absent bucket
(`none`) makes an append a `KeyError`, an unbound register (`none`) makes a
use a `NameError` — either way the decode raises, modelled by an overall
`none`. -/

/-- Loop state of `local_readTOC`: the file cursor, the table header fields,
the optional buckets of the `toc` dict, the loop-local `last*` registers, the
lazily computed `sizeRead` for `IDAT` entries, and the number of loop
iterations executed (`numbRead` advances). -/
structure TocSt where
  fid : Fid
  sizeTable : Nat
  numbEntry : Nat
  sizeEntry : Nat
  pntImag : Option (List Nat)
  pntVolm : Option (List Nat)
  pntNext : Option (List Nat)
  pntNset : Option (List Nat)
  pntThmb : Option (List Nat)
  idxText : Option (List Nat)
  pntText : Option (List Nat)
  pntCounter : Option (List Nat)
  linCounter : Option (List Nat)
  linPointer : Option (List Nat)
  dataB : Option (List (List Int))
  lastPointer : Option Nat
  lastIndex : Option Nat
  lastPntCount : Option Nat
  lastLinCount : Option Nat
  lastLinPoint : Option Nat
  lastData : Option (List Int)
  sizeReadV : Option Nat
  reads : Nat
  emptyT : Bool
deriving Repr, DecidableEq

/-- The pointer-table tag class of the payload dispatch
(`["FTOC", "IMAG", "VOLM", "NEXT", "THMB", "NSET"]`). -/
def pointerTags : List (List Nat) := [tagFTOC, tagIMAG, tagVOLM, tagNEXT, tagTHMB, tagNSET]

/-- The index/pointer-pair tag class of the payload dispatch
(`["TTOC", "IBOX", "TOFF", "VTOC"]`). -/
def pairTags : List (List Nat) := [tagTTOC, tagIBOX, tagTOFF, tagVTOC]

/-- The tags whose entries the bucketing dispatch appends as pointers
(`["IMAG", "VOLM", "NEXT", "NSET", "THMB"]` — note `FTOC` is absent). -/
def appendPtrTags : List (List Nat) := [tagIMAG, tagVOLM, tagNEXT, tagNSET, tagTHMB]

/-- The bucket a pointer-append entry goes to (`toc[f"pnt{type.capitalize()}"]`). -/
def ptrBucket (st : TocSt) (tg : List Nat) : Option (List Nat) :=
  if tg = tagIMAG then st.pntImag
  else if tg = tagVOLM then st.pntVolm
  else if tg = tagNEXT then st.pntNext
  else if tg = tagNSET then st.pntNset
  else st.pntThmb

/-- Store back into the bucket selected by the tag. -/
def setPtrBucket (st : TocSt) (tg : List Nat) (l : List Nat) : TocSt :=
  if tg = tagIMAG then { st with pntImag := some l }
  else if tg = tagVOLM then { st with pntVolm := some l }
  else if tg = tagNEXT then { st with pntNext := some l }
  else if tg = tagNSET then { st with pntNset := some l }
  else { st with pntThmb := some l }

/-- The payload dispatch of `local_readTOC`'s loop body: a zero `tmpSize`
skips it (`pass`), a known tag class reads that class's payload into the
`last*` registers, an unknown tag raises. -/
def tocPayload (st : TocSt) (tmpSize : Nat) (typeEntry : List Nat) (f1 : Fid) :
    Option TocSt :=
  if tmpSize = 0 then some { st with fid := f1 }
  else if typeEntry ∈ pointerTags then do
    let (p, f2) ← readU64 f1
    some { st with fid := f2, lastPointer := some p }
  else if typeEntry ∈ pairTags then do
    let (i, f2) ← readU64 f1
    let (p, f3) ← readU64 f2
    some { st with fid := f3, lastIndex := some i, lastPointer := some p }
  else if typeEntry = tagVOFF then do
    let (pc, f2) ← readU32 f1
    let (lc, f3) ← readU32 f2
    let (_, f4) ← readU64 f3
    let (lp, f5) ← readU64 f4
    some { st with fid := f5, lastPntCount := some pc, lastLinCount := some lc,
                   lastLinPoint := some lp }
  else if typeEntry = tagIDAT then do
    let sr := match st.sizeReadV with
      | some v => v
      | none => (st.sizeEntry - 16) / 4
    let (bs, f2) ← readExact f1 (4 * sr)
    some { st with fid := f2, sizeReadV := some sr, lastData := some (chunks4 bs) }
  else none

/-- The bucketing dispatch of `local_readTOC`'s loop body (with the
`numbRead += 1` of every iteration folded in as `reads + 1`): its final
`else` appends the registers again for `IBOX`/`VTOC` tables and otherwise
sets `done = 1` (returned as the `Bool`). -/
def tocBucket (ttype : List Nat) (st1 : TocSt) (typeEntry : List Nat) :
    Option (TocSt × Bool) :=
  if typeEntry ∈ appendPtrTags then do
    let v ← st1.lastPointer
    let b ← ptrBucket st1 typeEntry
    some (setPtrBucket { st1 with reads := st1.reads + 1 } typeEntry (b ++ [v]), false)
  else if typeEntry = tagTOFF then do
    let i ← st1.lastIndex
    let p ← st1.lastPointer
    let bi ← st1.idxText
    let bp ← st1.pntText
    some ({ st1 with idxText := some (bi ++ [i]), pntText := some (bp ++ [p]),
                     reads := st1.reads + 1 }, false)
  else if typeEntry = tagIDAT then do
    let d ← st1.lastData
    let b := match st1.dataB with
      | some l => l
      | none => []
    some ({ st1 with dataB := some (b ++ [d]), reads := st1.reads + 1 }, false)
  else if typeEntry = tagVOFF then do
    let pc ← st1.lastPntCount
    let lc ← st1.lastLinCount
    let lp ← st1.lastLinPoint
    let bp ← st1.pntCounter
    let bl ← st1.linCounter
    let bq ← st1.linPointer
    some ({ st1 with pntCounter := some (bp ++ [pc]), linCounter := some (bl ++ [lc]),
                     linPointer := some (bq ++ [lp]), reads := st1.reads + 1 }, false)
  else if ttype = tagIBOX then do
    let d ← st1.lastData
    let b ← st1.dataB
    some ({ st1 with dataB := some (b ++ [d]), reads := st1.reads + 1 }, false)
  else if ttype = tagVTOC then do
    let pc ← st1.lastPntCount
    let lc ← st1.lastLinCount
    let lp ← st1.lastLinPoint
    let bp ← st1.pntCounter
    let bl ← st1.linCounter
    let bq ← st1.linPointer
    some ({ st1 with pntCounter := some (bp ++ [pc]), linCounter := some (bl ++ [lc]),
                     linPointer := some (bq ++ [lp]), reads := st1.reads + 1 }, false)
  else
    some ({ st1 with reads := st1.reads + 1 }, true)

/-- One iteration of `local_readTOC`'s `while` loop for a table whose own
validated tag is `ttype`: read a sub-record header, run the payload dispatch,
then the bucketing dispatch. -/
def tocStep (ttype : List Nat) (st : TocSt) : Option (TocSt × Bool) := do
  let ((_, tmpSize, typeEntry, _), f1) ← local_readARDFpointer st.fid (-1)
  let st1 ← tocPayload st tmpSize typeEntry f1
  tocBucket ttype st1 typeEntry

/-- The `while (done == 0) and (numbRead <= toc["numbEntry"])` loop: at most
`n` further iterations (`n` starts at `numbEntry`). -/
def tocLoop (ttype : List Nat) : TocSt → Nat → Option TocSt
  | st, 0 => some st
  | st, n + 1 => do
    let (st1, done) ← tocStep ttype st
    if done then some st1 else tocLoop ttype st1 n

/-- The bucket initialisation of `local_readTOC` for the requested type, and
the top-level `sizeRead` assignment made when the requested type is `IDAT`. -/
def tocInit (f : Fid) (ttype : List Nat) (sT nE sE : Nat) : Option TocSt :=
  let base : TocSt :=
    { fid := f, sizeTable := sT, numbEntry := nE, sizeEntry := sE,
      pntImag := none, pntVolm := none, pntNext := none, pntNset := none, pntThmb := none,
      idxText := none, pntText := none,
      pntCounter := none, linCounter := none, linPointer := none,
      dataB := none,
      lastPointer := none, lastIndex := none, lastPntCount := none,
      lastLinCount := none, lastLinPoint := none, lastData := none,
      sizeReadV := none, reads := 0, emptyT := false }
  if ttype ∈ pointerTags then
    some { base with pntImag := some [], pntVolm := some [], pntNext := some [],
                     pntNset := some [], pntThmb := some [] }
  else if ttype ∈ [tagTTOC, tagIBOX, tagTOFF] then
    some { base with idxText := some [], pntText := some [] }
  else if ttype ∈ [tagVOFF, tagVTOC] then
    some { base with pntCounter := some [], linCounter := some [], linPointer := some [] }
  else if ttype = tagIDAT then
    some { base with dataB := some [], sizeReadV := some ((sE - 16) / 4) }
  else none

/-- `local_readTOC(fid, address, type)`: seek when `address != -1`, read the
table's own header; a zero size returns the empty dict (`emptyT`); otherwise
validate the tag, read `sizeTable`, `numbEntry`, `sizeEntry`, initialise the
class's buckets and run the entry loop. -/
def local_readTOC (s : Fid) (address : Int) (ttype : List Nat) : Option TocSt := do
  let s0 ← if address ≠ -1 then seekAbs s address else some s
  let ((_, lastSize, lastType, _), s1) ← local_readARDFpointer s0 (-1)
  if lastSize = 0 then
    some { fid := s1, sizeTable := 0, numbEntry := 0, sizeEntry := 0,
           pntImag := none, pntVolm := none, pntNext := none, pntNset := none,
           pntThmb := none, idxText := none, pntText := none,
           pntCounter := none, linCounter := none, linPointer := none, dataB := none,
           lastPointer := none, lastIndex := none, lastPntCount := none,
           lastLinCount := none, lastLinPoint := none, lastData := none,
           sizeReadV := none, reads := 0, emptyT := true }
  else if lastType = ttype then do
    let (sT, s2) ← readU64 s1
    let (nE, s3) ← readU32 s2
    let (sE, s4) ← readU32 s3
    let st0 ← tocInit s4 ttype sT nE sE
    tocLoop ttype st0 nE
  else none

/-! ## Concrete fixtures used by the claim theorems -/

/-- A point record whose `point` field (and marker data) is `p`. -/
def ptCE (p : Nat) : PtRec :=
  { force := p, line := 0, point := p, prev := 0, next := 0, nameId := p,
    y := [[(p : Int)]], pnt0 := 0, pnt1 := 0, pnt2 := 0 }

/-- A 3-point line recorded in reversed physical order: `point` fields 2, 1, 0. -/
def recsC2 : List PtRec := [ptCE 2, ptCE 1, ptCE 0]

/-- Channel-sliced line contents of a 2-line, 3-point scan-down volume:
lines live at file offsets 5 and 9. -/
def lineAtC1 : Nat → Option (List (List Int)) := fun loc =>
  if loc = 5 then some [[1], [2], [3]]
  else if loc = 9 then some [[4], [5], [6]] else none

/-- The fetch `extract_ardf` performs on that volume
(`scanDown = 1`, `vdef.lines = 2`, `linPointer = [5, 9]`). -/
def fetchC1 : Nat → Option (List (List Int)) := fetchOf true 2 [5, 9] lineAtC1

/-- Line contents for the C4 volume: `vdef.lines = 1` but the VTOC holds three
line pointers; the line at offset 9 has longer waveforms than the others. -/
def lineAtC4 : Nat → Option (List (List Int)) := fun loc =>
  if loc = 5 then some [[1], [1], [1]]
  else if loc = 7 then some [[2], [2], [2]]
  else if loc = 9 then some [[3, 3], [3, 3], [3, 3]] else none

/-- The fetch for the C4 volume (`scanDown = 1`, `vdef.lines = 1`,
`linPointer = [5, 9, 7]`): Python's negative indexing makes all three
`getARDFdata` calls succeed. -/
def fetchC4 : Nat → Option (List (List Int)) := fetchOf true 1 [5, 9, 7] lineAtC4

/-- `VSET`s of a 2-line volume: row 0's `VSET` has `line = 0, point = 0`
(matching its nominal row), row 1's has `line = 0, point = 1`. -/
def vsC3 : Nat → VSetF := fun r =>
  if r = 0 then { line := 0, point := 0 } else { line := 0, point := 1 }

/-- A line stream whose first point record is malformed (a reader raises). -/
def lrC5 : Nat → List (Option PtRec) := fun _ => [none]

/-- An `FTOC`-typed table declaring `numbEntry = 3` whose second sub-record
has declared size 0 (and a blank tag), followed by a third, valid `IMAG`
entry holding pointer 200. -/
def c7file : List Nat :=
  [1, 0, 0, 0] ++ [48, 0, 0, 0] ++ tagFTOC ++ [0, 0, 0, 0] ++
  [24, 0, 0, 0, 0, 0, 0, 0] ++ [3, 0, 0, 0] ++ [24, 0, 0, 0] ++
  [0, 0, 0, 0] ++ [24, 0, 0, 0] ++ tagIMAG ++ [0, 0, 0, 0] ++
  [100, 0, 0, 0, 0, 0, 0, 0] ++
  [0, 0, 0, 0] ++ [0, 0, 0, 0] ++ [0, 0, 0, 0] ++ [0, 0, 0, 0] ++
  [0, 0, 0, 0] ++ [24, 0, 0, 0] ++ tagIMAG ++ [0, 0, 0, 0] ++
  [200, 0, 0, 0, 0, 0, 0, 0]

/-- A complete `VDAT` record with `sizeData = 0`: 16-byte header, eight 4-byte
fields, 8 reserved bytes — 56 bytes in total. -/
def c8file : List Nat :=
  [0, 0, 0, 0] ++ [60, 0, 0, 0] ++ tagVDAT ++ [0, 0, 0, 0] ++
  [1, 0, 0, 0] ++ [2, 0, 0, 0] ++ [3, 0, 0, 0] ++ [0, 0, 0, 0] ++
  [5, 0, 0, 0] ++ [6, 0, 0, 0] ++ [7, 0, 0, 0] ++ [8, 0, 0, 0] ++
  [9, 9, 9, 9, 9, 9, 9, 9]

/-- A TOC loop state positioned at 16 zero bytes: the next sub-record header
has size 0 and a blank tag. -/
def stW : TocSt :=
  { fid := { data := List.replicate 16 0, pos := 0 },
    sizeTable := 0, numbEntry := 1, sizeEntry := 24,
    pntImag := some [], pntVolm := some [], pntNext := some [],
    pntNset := some [], pntThmb := some [],
    idxText := none, pntText := none,
    pntCounter := none, linCounter := none, linPointer := none, dataB := none,
    lastPointer := none, lastIndex := none, lastPntCount := none,
    lastLinCount := none, lastLinPoint := none, lastData := none,
    sizeReadV := none, reads := 0, emptyT := false }

/-- A square 1×1 fetch: one line with one point of waveform `[7]`. -/
def fetchW : Nat → Option (List (List Int)) := fun p =>
  if p = 0 then some [[7]] else none

/-- A constant `VSET` source for witnesses. -/
def vsW : Nat → VSetF := fun _ => { line := 0, point := 0 }

/-! # Claim theorems -/

/-- C1: the claim states that `data[channel]["trace"|"retrace"]` has shape
`[lines, points, padded]` with `lines` and `points` from the volume's VDEF.
Evaluation of the embedded assembly on a completing run of a non-square
scan-down volume (`lines = 2`, `points = 3`): `extract_ardf` iterates its line
loop `for point in range(points)` and passes the loop variable to
`getARDFdata` as the line index, so the first dimension of the returned array
is `points = 3`, not `lines = 2` (and when `lines > points` the re-pad loop
raises `IndexError` instead of returning anything). -/
theorem ardf_C1_eval :
    (assembleDir 2 3 fetchC1 0).map (fun r => r.1.length) = some 3 ∧
    (assembleDir 2 3 fetchC1 0).map (fun r => r.1.length) ≠ some 2 := by
  decide

/-- C2: the claim states that the per-point collections are reversed exactly
once, before returning, yielding order `[0, 1, 2]` for a line physically
recorded as points 2, 1, 0.  The `reverse` block is inside the per-point loop,
so the collections are reversed on every iteration whose current first
`numbPoint` element is non-zero: the code returns point order `[0, 2, 1]`,
not the logically forward `[0, 1, 2]` a single final reversal produces. -/
theorem ardf_C2_eval :
    (pointFold recsC2).numbPoint = [0, 2, 1] ∧
    (specPointOrder recsC2).numbPoint = [0, 1, 2] ∧
    (pointFold recsC2).numbPoint ≠ (specPointOrder recsC2).numbPoint := by
  decide

/-- C3 counterexample: a 2-line volume in which both lines are non-empty,
row 0's `VSET` matching its nominal row (`line = 0`, `point = 0`) and row 1's
not (`line = 0`, `point = 1`).  The claim says the flags come from the first
non-empty line's `VSET` — that would give `(scanDown, trace) = (0, 1)` —
but `readARDF` overwrites the flags at every non-empty line and returns
`(1, 0)`, derived from the last one. -/
theorem ardf_C3_counterexample :
    deriveFlags 2 [5, 7] vsC3 = some (some 1, some 0) ∧
    deriveFlags 2 [5, 7] vsC3 ≠
      some (some (scanOf (vsC3 0) 0), some (traceOf (vsC3 0))) := by
  decide

/-- C4 counterexample: a completing run (scan-down volume, `vdef.lines = 1`,
`points = 3`, a 3-entry VTOC) in which the running maximum grows at the last
collected row: the re-pad pass only covers rows `0 .. lines-1 = 0`, so the
waveforms of row 1 keep length 1 although the final waveform dimension
(`max_size`) is 2 — the claim's "every waveform shorter than that dimension
is right-padded up to exactly that dimension" is false for the returned
value. -/
theorem ardf_C4_counterexample :
    assembleDir 1 3 fetchC4 0 =
      some ([[[some 1, none], [some 1, none], [some 1, none]],
             [[some 2], [some 2], [some 2]],
             [[some 3, some 3], [some 3, some 3], [some 3, some 3]]], 2) ∧
    ¬ (∀ row ∈ ((assembleDir 1 3 fetchC4 0).map Prod.fst).getD [],
        ∀ c ∈ row, c.length = 2) := by
  decide

/-- C5 counterexample: a line extraction whose first point record is
malformed.  The decode error propagates (`res` is an error) while the file
handle is still open (`handleOpen = true`): `getARDFdata` has no
`try`/`finally`, so the claim's "closes it … before any fatal decode error
propagates" is false. -/
theorem ardf_C5_counterexample :
    (getARDFdata 1 1 false [5] lrC5 0).handleOpen = true ∧
    isErr (getARDFdata 1 1 false [5] lrC5 0).res = true := by
  decide

/-- C5 amended: on every exit of a line extraction, the handle is open exactly
when the call failed — it is closed on the empty-line early return and on the
successful return, and left open (to the garbage collector) whenever a fatal
decode error propagates. -/
theorem ardf_C5_amended (numbLines numbPoints : Nat) (scanDown : Bool)
    (linPointer : List Nat) (lineRecs : Nat → List (Option PtRec)) (getLine : Nat) :
    (getARDFdata numbLines numbPoints scanDown linPointer lineRecs getLine).handleOpen =
      isErr (getARDFdata numbLines numbPoints scanDown linPointer lineRecs getLine).res := by
  rcases h : pyGetNat linPointer
      (if scanDown then (numbLines : Int) - (getLine : Int) - 1 else (getLine : Int)) with _ | n
  · simp [getARDFdata, h, isErr]
  · rcases n with _ | n
    · simp [getARDFdata, h, isErr]
    · rcases h2 : runPoints numbPoints (lineRecs (n + 1)) gEmpty with e | G <;>
        simp [getARDFdata, h, h2, isErr]

/-- C6 counterexample: an image (index 0) with two text records.  The claim
says the first through fourth occurrences fill the recognized slots and only
an occurrence outside them raises; but the loop raises already at the first
occurrence (`r = 0`), because only `r ∈ {1, 2, 3}` is handled once the
more-than-one-record branch is taken. -/
theorem ardf_C6_counterexample :
    extractImagesTextScan 0 2 (fun r => r + 10) = Except.error 0 := by
  rfl

/-- C6 amended: with more than one text record — or for image index `n = 1`
with at least one — the scan raises at the very first occurrence, since only
occurrence indices 1, 2, 3 fill the thumbnail/per-image/quick slots; an image
with exactly one text record (and `n ≠ 1`) has it parsed directly as the
per-image note. -/
theorem ardf_C6_amended (n k : Nat) (notes : Nat → Nat) :
    extractImagesTextScan n k notes =
      if k = 0 then Except.ok imEmpty
      else if k > 1 ∨ n = 1 then Except.error 0
      else Except.ok { thumb := none, note := some (notes 0), quick := none } := by
  match k with
  | 0 => rfl
  | 1 =>
    by_cases h : n = 1
    · simp only [extractImagesTextScan, imTextLoop, h]
      norm_num
    · simp only [extractImagesTextScan, imTextLoop, h]
      norm_num [imEmpty]
  | (k + 2) =>
    simp only [extractImagesTextScan, imTextLoop]
    norm_num

/-- C9 counterexample: the byte string `b"\xff\x00"` is not valid UTF-8 and
(with the `chardet` fallback also failing, as happens when no encoding is
detected) `smart_decode` returns the byte string itself, unmodified — with
its embedded NUL still present, contradicting the claim that NULs are
stripped from the returned value in every case. -/
theorem ardf_C9_counterexample :
    smart_decode cdFail [255, 0] = SDResult.raw [255, 0] ∧
    resultHasNul (smart_decode cdFail [255, 0]) = true := by
  decide

/-- C10: for every address other than the `-1` current-cursor sentinel,
`local_readVNAM` and `local_readXDAT` execute `fid.seek(-1)` — an absolute
seek to a negative offset — and therefore fail before reading any record
bytes, whatever the file contents; `local_readVSET`, in contrast, seeks to
the given (non-negative) address and then reads there. -/
theorem ardf_C10_seek (s : Fid) (a : Int) (h : a ≠ -1) :
    local_readVNAM s a = none ∧ local_readXDAT s a = none ∧
    (0 ≤ a → local_readVSET s a = local_readVSET { s with pos := a.toNat } (-1)) := by
  refine ⟨?_, ?_, ?_⟩
  · unfold local_readVNAM
    simp [h, seekAbs]
  · unfold local_readXDAT
    simp [h, seekAbs]
  · intro ha
    unfold local_readVSET
    simp [h, seekAbs, Int.not_lt.mpr ha]

/-- Witness for C10 at the concrete address 5. -/
theorem ardf_C10_seek_witness :
    local_readVNAM { data := [], pos := 0 } 5 = none ∧
    local_readXDAT { data := [], pos := 0 } 5 = none ∧
    local_readVSET { data := [], pos := 0 } 5 =
      local_readVSET { data := [], pos := 5 } (-1) := by
  have h := ardf_C10_seek { data := [], pos := 0 } 5 (by decide)
  exact ⟨h.1, h.2.1, h.2.2 (by decide)⟩

/-! ### Helper lemmas and amended theorem for C3 -/

/-- `getLast?` of a cons in `getD` form. -/
theorem getLast?_cons_getD (a : Nat) (l : List Nat) :
    (a :: l).getLast? = some (l.getLast?.getD a) := by
  cases l with
  | nil => rfl
  | cons b t =>
    rw [List.getLast?_cons_cons]
    cases h : (b :: t).getLast? with
    | none => simp at h
    | some x => rfl

/-- Unfolding equation of `flagsLoop` for a positive remaining count. -/
theorem flagsLoop_succ (lp : List Nat) (vs : Nat → VSetF) (r n : Nat)
    (fl : Option Nat × Option Nat) :
    flagsLoop lp vs r (n + 1) fl =
      match lp[r]? with
      | none => none
      | some loc =>
        if loc ≠ 0 then
          flagsLoop lp vs (r + 1) n (some (scanOf (vs r) r), some (traceOf (vs r)))
        else flagsLoop lp vs (r + 1) n fl := rfl

/-- The flag loop computes the flags of the last index of its range whose
line pointer is non-zero, keeping the incoming flags if there is none. -/
theorem flagsLoop_spec (lp : List Nat) (vs : Nat → VSetF) :
    ∀ (k r : Nat) (fl : Option Nat × Option Nat), r + k ≤ lp.length →
    flagsLoop lp vs r k fl = some
      (match ((List.range' r k).filter (fun j => lp.getD j 0 ≠ 0)).getLast? with
       | none => fl
       | some j => (some (scanOf (vs j) j), some (traceOf (vs j)))) := by
  intro k
  induction k with
  | zero =>
    intro r fl h
    simp [flagsLoop]
  | succ n ih =>
    intro r fl h
    have hr : r < lp.length := by omega
    have hget : lp[r]? = some lp[r] := List.getElem?_eq_getElem hr
    rw [List.range'_succ, flagsLoop_succ, hget]
    dsimp only
    by_cases h0 : lp[r] ≠ 0
    · rw [if_pos h0, ih (r + 1) _ (by omega)]
      have hfil : (r :: List.range' (r + 1) n).filter (fun j => lp.getD j 0 ≠ 0) =
          r :: (List.range' (r + 1) n).filter (fun j => lp.getD j 0 ≠ 0) := by
        rw [List.filter_cons_of_pos]
        simp [List.getD, hget, h0]
      rw [hfil, getLast?_cons_getD]
      cases ((List.range' (r + 1) n).filter (fun j => lp.getD j 0 ≠ 0)).getLast? with
      | none => rfl
      | some j => rfl
    · push_neg at h0
      rw [if_neg (by simp [h0]), ih (r + 1) _ (by omega)]
      have hfil : (r :: List.range' (r + 1) n).filter (fun j => lp.getD j 0 ≠ 0) =
          (List.range' (r + 1) n).filter (fun j => lp.getD j 0 ≠ 0) := by
        rw [List.filter_cons_of_neg]
        simp [List.getD, hget, h0]
      rw [hfil]

/-- C3 amended: when `linPointer` covers the declared line count, the volume's
`(scanDown, trace)` flags are derived from the **last** non-empty line's
`VSET` (every non-empty line overwrites them), not the first; they stay unset
when every line pointer is zero. -/
theorem ardf_C3_amended (lines : Nat) (lp : List Nat) (vs : Nat → VSetF)
    (h : lines ≤ lp.length) :
    deriveFlags lines lp vs = some
      (match lastNonEmptyRow lines lp with
       | none => (none, none)
       | some r => (some (scanOf (vs r) r), some (traceOf (vs r)))) := by
  have hspec := flagsLoop_spec lp vs lines 0 (none, none) (by omega)
  rw [deriveFlags, hspec]
  unfold lastNonEmptyRow
  rw [List.range_eq_range' lines]

/-- Witness for C3 amended: a 1-line volume whose single line is non-empty. -/
theorem ardf_C3_amended_witness :
    deriveFlags 1 [3] vsW = some
      (match lastNonEmptyRow 1 [3] with
       | none => (none, none)
       | some r => (some (scanOf (vsW r) r), some (traceOf (vsW r)))) :=
  ardf_C3_amended 1 [3] vsW (by decide)

/-! ### Cursor-advance lemmas for the byte-level readers (C7, C8) -/

/-- `Option.bind_eq_some` phrased on the monadic bind. -/
theorem obind_eq_some {α β : Type} {x : Option α} {f : α → Option β} {b : β} :
    (x >>= f) = some b ↔ ∃ a, x = some a ∧ f a = some b :=
  Option.bind_eq_some

/-- A successful exact read advances the cursor by exactly `n` and, unless
`n = 0`, stays within the file. -/
theorem readExact_spec {s : Fid} {n : Nat} {bs : List Nat} {s' : Fid}
    (h : readExact s n = some (bs, s')) :
    s'.pos = s.pos + n ∧ s'.data = s.data ∧ (n = 0 ∨ s.pos + n ≤ s.data.length) := by
  unfold readExact at h
  split at h
  · rename_i hl
    cases h
    refine ⟨rfl, rfl, ?_⟩
    simp only [List.length_take, List.length_drop] at hl
    omega
  · cases h

/-- A successful 4-byte read advances the cursor by 4 within the file. -/
theorem readU32_spec {s : Fid} {v : Nat} {s' : Fid} (h : readU32 s = some (v, s')) :
    s'.pos = s.pos + 4 ∧ s'.data = s.data ∧ s.pos + 4 ≤ s.data.length := by
  unfold readU32 at h
  cases he : readExact s 4 with
  | none => rw [he] at h; cases h
  | some r =>
    rw [he] at h
    rcases r with ⟨bs, s2⟩
    cases h
    obtain ⟨p, d, l⟩ := readExact_spec he
    exact ⟨p, d, by omega⟩

/-- A successful 8-byte read advances the cursor by 8 within the file. -/
theorem readU64_spec {s : Fid} {v : Nat} {s' : Fid} (h : readU64 s = some (v, s')) :
    s'.pos = s.pos + 8 ∧ s'.data = s.data ∧ s.pos + 8 ≤ s.data.length := by
  unfold readU64 at h
  cases he : readExact s 8 with
  | none => rw [he] at h; cases h
  | some r =>
    rw [he] at h
    rcases r with ⟨bs, s2⟩
    cases h
    obtain ⟨p, d, l⟩ := readExact_spec he
    exact ⟨p, d, by omega⟩

/-- A plain `fid.read(n)` with `n ≥ 0` advances the cursor by `n`, clamped at
the end of the file. -/
theorem pyRead_pos_spec {s : Fid} {n : Int} {bs : List Nat} {s' : Fid}
    (hn : 0 ≤ n) (h : pyRead s n = some (bs, s')) :
    s'.pos = s.pos + min n.toNat (s.data.length - s.pos) ∧ s'.data = s.data := by
  unfold pyRead at h
  rw [if_neg (by omega)] at h
  cases h
  refine ⟨?_, rfl⟩
  simp only [List.length_take, List.length_drop]

/-- A successful header read at the current cursor consumes exactly the
16-byte record prolog. -/
theorem header_spec {s : Fid} {hd : Nat × Nat × List Nat × Nat} {s' : Fid}
    (h : local_readARDFpointer s (-1) = some (hd, s')) :
    s'.pos = s.pos + 16 ∧ s'.data = s.data ∧ s.pos + 16 ≤ s.data.length := by
  unfold local_readARDFpointer at h
  rw [if_neg (by decide : ¬((-1 : Int) ≠ -1))] at h
  rw [obind_eq_some] at h
  obtain ⟨s0, hs0, h⟩ := h
  cases hs0
  rw [obind_eq_some] at h
  obtain ⟨⟨crc, s1⟩, h1, h⟩ := h
  rw [obind_eq_some] at h
  obtain ⟨⟨size, s2⟩, h2, h⟩ := h
  rw [obind_eq_some] at h
  obtain ⟨⟨tg, s3⟩, h3, h⟩ := h
  rw [obind_eq_some] at h
  obtain ⟨⟨misc, s4⟩, h4, h⟩ := h
  cases h
  obtain ⟨p1, d1, l1⟩ := readU32_spec h1
  obtain ⟨p2, d2, l2⟩ := readU32_spec h2
  obtain ⟨p3, d3⟩ := pyRead_pos_spec (by omega) h3
  obtain ⟨p4, d4, l4⟩ := readU32_spec h4
  rw [d1] at l2
  rw [d3, d2, d1] at l4
  rw [d2, d1] at p3
  refine ⟨?_, by rw [d4, d3, d2, d1], ?_⟩ <;> omega

/-- C8 counterexample: a complete `VDAT` record with `sizeData = 0` occupies
56 bytes — `local_readVDAT` ends at position 56, not at the
`16 + 28 + 8 + 4·sizeData = 52` bytes the claim states, because the reader
consumes *eight* 4-byte integer fields (32 bytes), not seven. -/
theorem ardf_C8_counterexample :
    (local_readVDAT { data := c8file, pos := 0 } (-1)).map
        (fun r => (r.1.sizeData, r.2.pos)) = some (0, 56) ∧
    (local_readVDAT { data := c8file, pos := 0 } (-1)).map (fun r => r.2.pos) ≠
      some (52 + 4 * 0) := by
  decide

/-- C8 amended: a successful `local_readVDAT` at the current cursor validates
the `VDAT` tag, reads eight 4-byte integer fields, skips 8 reserved bytes and
reads `sizeData` signed 32-bit integers, consuming
`16 + 32 + 8 + 4·sizeData = 56 + 4·sizeData` bytes (clamped at end of file
only in the degenerate `sizeData = 0` case, since the reserved-byte skip is a
plain `fid.read(8)`). -/
theorem ardf_C8_amended (s : Fid) (v : VDatB) (s' : Fid)
    (h : local_readVDAT s (-1) = some (v, s')) :
    s'.pos = min (s.pos + 56 + 4 * v.sizeData) s.data.length := by
  unfold local_readVDAT at h
  rw [if_neg (by decide : ¬((-1 : Int) ≠ -1))] at h
  rw [obind_eq_some] at h
  obtain ⟨s0, hs0, h⟩ := h
  cases hs0
  rw [obind_eq_some] at h
  obtain ⟨⟨⟨crc, sz, tg, misc⟩, s1⟩, hh, h⟩ := h
  dsimp only at h
  split at h
  case isFalse => cases h
  case isTrue htg =>
  rw [obind_eq_some] at h
  obtain ⟨⟨x1, s2⟩, h1, h⟩ := h
  rw [obind_eq_some] at h
  obtain ⟨⟨x2, s3⟩, h2, h⟩ := h
  rw [obind_eq_some] at h
  obtain ⟨⟨x3, s4⟩, h3, h⟩ := h
  rw [obind_eq_some] at h
  obtain ⟨⟨sd, s5⟩, h4, h⟩ := h
  rw [obind_eq_some] at h
  obtain ⟨⟨x5, s6⟩, h5, h⟩ := h
  rw [obind_eq_some] at h
  obtain ⟨⟨x6, s7⟩, h6, h⟩ := h
  rw [obind_eq_some] at h
  obtain ⟨⟨x7, s8⟩, h7, h⟩ := h
  rw [obind_eq_some] at h
  obtain ⟨⟨x8, s9⟩, h8, h⟩ := h
  rw [obind_eq_some] at h
  obtain ⟨⟨xr, s10⟩, h9, h⟩ := h
  rw [obind_eq_some] at h
  obtain ⟨⟨bsd, s11⟩, h10, h⟩ := h
  cases h
  obtain ⟨q0, e0, b0⟩ := header_spec hh
  obtain ⟨q1, e1, b1⟩ := readU32_spec h1
  obtain ⟨q2, e2, b2⟩ := readU32_spec h2
  obtain ⟨q3, e3, b3⟩ := readU32_spec h3
  obtain ⟨q4, e4, b4⟩ := readU32_spec h4
  obtain ⟨q5, e5, b5⟩ := readU32_spec h5
  obtain ⟨q6, e6, b6⟩ := readU32_spec h6
  obtain ⟨q7, e7, b7⟩ := readU32_spec h7
  obtain ⟨q8, e8, b8⟩ := readU32_spec h8
  obtain ⟨q9, e9⟩ := pyRead_pos_spec (by omega) h9
  obtain ⟨q10, e10, b10⟩ := readExact_spec h10
  dsimp only at *
  have E1 : s1.data = s.data := e0
  have E2 : s2.data = s.data := by rw [e1, E1]
  have E3 : s3.data = s.data := by rw [e2, E2]
  have E4 : s4.data = s.data := by rw [e3, E3]
  have E5 : s5.data = s.data := by rw [e4, E4]
  have E6 : s6.data = s.data := by rw [e5, E5]
  have E7 : s7.data = s.data := by rw [e6, E6]
  have E8 : s8.data = s.data := by rw [e7, E7]
  have E9 : s9.data = s.data := by rw [e8, E8]
  have E10 : s10.data = s.data := by rw [e9, E9]
  rw [E8] at b8
  rw [E9] at q9
  rw [E10] at b10
  omega

/-- Witness for C8 amended: the 56-byte `sizeData = 0` record. -/
theorem ardf_C8_amended_witness :
    ({ data := c8file, pos := 56 } : Fid).pos =
      min (({ data := c8file, pos := 0 } : Fid).pos + 56 + 4 *
        (VDatB.mk 1 2 3 0 5 6 7 8 []).sizeData)
        ({ data := c8file, pos := 0 } : Fid).data.length :=
  ardf_C8_amended { data := c8file, pos := 0 } (VDatB.mk 1 2 3 0 5 6 7 8 [])
    { data := c8file, pos := 56 } (by decide)

/-- Filtering the NULs out leaves no NUL behind. -/
theorem filterNul_contains (l : List Nat) : (l.filter (fun c => c ≠ 0)).contains 0 = false := by
  simp

/-- C9 amended: `smart_decode` is total and NULs are stripped on the two
decode paths (UTF-8, then the `chardet` fallback); but when both fail the
original byte string is returned unmodified — embedded NULs included. -/
theorem ardf_C9_amended (b : List Nat) (cd : List Nat → Option (List Nat)) :
    (∀ cps, smart_decode cd b = SDResult.txt cps → cps.contains 0 = false) ∧
    (∀ bs, smart_decode cd b = SDResult.raw bs →
      bs = b ∧ utf8DecodeList b = none ∧ cd b = none) := by
  unfold smart_decode
  rcases h1 : utf8DecodeList b with _ | cps1
  · rcases h2 : cd b with _ | cps2
    · refine ⟨fun cps hc => ?_, fun bs hb => ?_⟩
      · cases hc
      · cases hb
        exact ⟨rfl, rfl, rfl⟩
    · refine ⟨fun cps hc => ?_, fun bs hb => ?_⟩
      · cases hc
        exact filterNul_contains cps2
      · cases hb
  · refine ⟨fun cps hc => ?_, fun bs hb => ?_⟩
    · cases hc
      exact filterNul_contains cps1
    · cases hb

/-- Witness for C9 amended at the valid-UTF-8 input `[65]`. -/
theorem ardf_C9_amended_witness : ([65] : List Nat).contains 0 = false :=
  (ardf_C9_amended [65] cdFail).1 [65] rfl

/-! ### Loop lemmas for `local_readTOC` (C7) -/

/-- `setPtrBucket` never touches the iteration counter. -/
theorem setPtrBucket_reads (st : TocSt) (tg : List Nat) (l : List Nat) :
    (setPtrBucket st tg l).reads = st.reads := by
  unfold setPtrBucket
  repeat' split
  all_goals rfl

/-- The payload dispatch never touches the iteration counter. -/
theorem tocPayload_reads {st : TocSt} {a : Nat} {te : List Nat} {f1 : Fid} {st1 : TocSt}
    (h : tocPayload st a te f1 = some st1) : st1.reads = st.reads := by
  unfold tocPayload at h
  split at h
  · cases h; rfl
  · split at h
    · rw [obind_eq_some] at h
      obtain ⟨⟨p, f2⟩, _, h⟩ := h
      cases h; rfl
    · split at h
      · rw [obind_eq_some] at h
        obtain ⟨⟨i, f2⟩, _, h⟩ := h
        rw [obind_eq_some] at h
        obtain ⟨⟨p, f3⟩, _, h⟩ := h
        cases h; rfl
      · split at h
        · rw [obind_eq_some] at h
          obtain ⟨⟨pc, f2⟩, _, h⟩ := h
          rw [obind_eq_some] at h
          obtain ⟨⟨lc, f3⟩, _, h⟩ := h
          rw [obind_eq_some] at h
          obtain ⟨⟨du, f4⟩, _, h⟩ := h
          rw [obind_eq_some] at h
          obtain ⟨⟨lp, f5⟩, _, h⟩ := h
          cases h; rfl
        · split at h
          · rw [obind_eq_some] at h
            obtain ⟨⟨bs, f2⟩, _, h⟩ := h
            cases h; rfl
          · cases h

/-- The bucketing dispatch advances the iteration counter by exactly one. -/
theorem tocBucket_reads {ttype : List Nat} {st1 : TocSt} {te : List Nat}
    {st2 : TocSt} {d : Bool} (h : tocBucket ttype st1 te = some (st2, d)) :
    st2.reads = st1.reads + 1 := by
  unfold tocBucket at h
  split at h
  · rw [obind_eq_some] at h
    obtain ⟨v, _, h⟩ := h
    rw [obind_eq_some] at h
    obtain ⟨b, _, h⟩ := h
    cases h
    rw [setPtrBucket_reads]
  · split at h
    · rw [obind_eq_some] at h
      obtain ⟨i, _, h⟩ := h
      rw [obind_eq_some] at h
      obtain ⟨p, _, h⟩ := h
      rw [obind_eq_some] at h
      obtain ⟨bi, _, h⟩ := h
      rw [obind_eq_some] at h
      obtain ⟨bp, _, h⟩ := h
      cases h; rfl
    · split at h
      · rw [obind_eq_some] at h
        obtain ⟨dd, _, h⟩ := h
        cases h; rfl
      · split at h
        · rw [obind_eq_some] at h
          obtain ⟨pc, _, h⟩ := h
          rw [obind_eq_some] at h
          obtain ⟨lc, _, h⟩ := h
          rw [obind_eq_some] at h
          obtain ⟨lp, _, h⟩ := h
          rw [obind_eq_some] at h
          obtain ⟨bp, _, h⟩ := h
          rw [obind_eq_some] at h
          obtain ⟨bl, _, h⟩ := h
          rw [obind_eq_some] at h
          obtain ⟨bq, _, h⟩ := h
          cases h; rfl
        · split at h
          · rw [obind_eq_some] at h
            obtain ⟨dd, _, h⟩ := h
            rw [obind_eq_some] at h
            obtain ⟨b, _, h⟩ := h
            cases h; rfl
          · split at h
            · rw [obind_eq_some] at h
              obtain ⟨pc, _, h⟩ := h
              rw [obind_eq_some] at h
              obtain ⟨lc, _, h⟩ := h
              rw [obind_eq_some] at h
              obtain ⟨lp, _, h⟩ := h
              rw [obind_eq_some] at h
              obtain ⟨bp, _, h⟩ := h
              rw [obind_eq_some] at h
              obtain ⟨bl, _, h⟩ := h
              rw [obind_eq_some] at h
              obtain ⟨bq, _, h⟩ := h
              cases h; rfl
            · cases h; rfl

/-- An unrecognized sub-record tag in a pointer-class table terminates the
loop (`done = 1`) with only the counter advanced. -/
theorem tocBucket_done {ttype : List Nat} (st1 : TocSt) {te : List Nat}
    (h1 : te ∉ appendPtrTags) (h2 : te ≠ tagTOFF) (h3 : te ≠ tagIDAT) (h4 : te ≠ tagVOFF)
    (h5 : ttype ≠ tagIBOX) (h6 : ttype ≠ tagVTOC) :
    tocBucket ttype st1 te = some ({ st1 with reads := st1.reads + 1 }, true) := by
  unfold tocBucket
  rw [if_neg h1, if_neg h2, if_neg h3, if_neg h4, if_neg h5, if_neg h6]

/-- One loop iteration advances the iteration counter by exactly one. -/
theorem tocStep_reads {ttype : List Nat} {st st1 : TocSt} {d : Bool}
    (h : tocStep ttype st = some (st1, d)) : st1.reads = st.reads + 1 := by
  unfold tocStep at h
  rw [obind_eq_some] at h
  obtain ⟨⟨⟨crc, tsz, te, misc⟩, f1⟩, hh, h⟩ := h
  dsimp only at h
  rw [obind_eq_some] at h
  obtain ⟨stp, hp, h⟩ := h
  have h5 := tocPayload_reads hp
  have h6 := tocBucket_reads h
  omega

/-- Unfolding equation of `tocLoop` for a positive remaining count. -/
theorem tocLoop_succ (ttype : List Nat) (st : TocSt) (k : Nat) :
    tocLoop ttype st (k + 1) =
      (tocStep ttype st >>= fun r => if r.2 then some r.1 else tocLoop ttype r.1 k) := rfl

/-- The loop executes at most its remaining-entry budget. -/
theorem tocLoop_reads (ttype : List Nat) :
    ∀ (n : Nat) (st res : TocSt), tocLoop ttype st n = some res →
      res.reads ≤ st.reads + n := by
  intro n
  induction n with
  | zero =>
    intro st res h
    cases h
    omega
  | succ k ih =>
    intro st res h
    rw [tocLoop_succ, obind_eq_some] at h
    obtain ⟨⟨st1, done⟩, hs, h⟩ := h
    have hr := tocStep_reads hs
    cases done with
    | true =>
      cases h
      have hr2 : st1.reads = st.reads + 1 := hr
      show st1.reads ≤ st.reads + (k + 1)
      omega
    | false =>
      have h2 : res.reads ≤ st1.reads + k := ih st1 res h
      have hr2 : st1.reads = st.reads + 1 := hr
      omega

/-- C7 counterexample: an `FTOC` table declaring `numbEntry = 3` whose second
sub-record has size 0, with a third valid `IMAG` entry after it.  The loop
stops at the zero-size record although a further entry is declared: only 2 of
the 3 declared entries are ever read and pointer 200 never reaches the
bucket, contradicting the claim that the loop "terminates early only when a
zero-size sub-record is seen and no further entries are declared; otherwise
it continues until numbEntry entries have been read". -/
theorem ardf_C7_counterexample :
    (local_readTOC { data := c7file, pos := 0 } (-1) tagFTOC).map
        (fun st => (st.pntImag, st.reads, st.numbEntry)) = some (some [100], 2, 3) ∧
    (local_readTOC { data := c7file, pos := 0 } (-1) tagFTOC).map
        (fun st => st.reads) ≠ some 3 := by
  decide

/-- C7 amended: `numbEntry` still bounds the loop (at most `numbEntry`
sub-records are read), and a zero-size sub-record consumes only its 16-byte
header, no payload; but the loop terminates at *any* sub-record the bucketing
dispatch does not recognize — in a pointer-class table in particular at a
zero-size sub-record, whatever its tag and however many entries remain
declared. -/
theorem ardf_C7_amended :
    (∀ (ttype : List Nat) (n : Nat) (st res : TocSt),
      tocLoop ttype st n = some res → res.reads ≤ st.reads + n) ∧
    (∀ (ttype : List Nat) (n crc : Nat) (st : TocSt) (tg : List Nat) (misc : Nat) (f1 : Fid),
      local_readARDFpointer st.fid (-1) = some ((crc, 0, tg, misc), f1) →
      tg ∉ appendPtrTags → tg ≠ tagTOFF → tg ≠ tagIDAT → tg ≠ tagVOFF →
      ttype ≠ tagIBOX → ttype ≠ tagVTOC →
      f1.pos = st.fid.pos + 16 ∧
      tocLoop ttype st (n + 1) =
        some { st with fid := f1, reads := st.reads + 1 }) := by
  constructor
  · exact fun ttype n st res h => tocLoop_reads ttype n st res h
  · intro ttype n crc st tg misc f1 hh h1 h2 h3 h4 h5 h6
    obtain ⟨hpos, _, _⟩ := header_spec hh
    refine ⟨hpos, ?_⟩
    have hstep : tocStep ttype st = some ({ st with fid := f1, reads := st.reads + 1 }, true) := by
      unfold tocStep
      rw [hh]
      show (tocPayload st 0 tg f1 >>= fun st1 => tocBucket ttype st1 tg) = _
      rw [show tocPayload st 0 tg f1 = some { st with fid := f1 } from rfl]
      show tocBucket ttype { st with fid := f1 } tg = _
      rw [tocBucket_done _ h1 h2 h3 h4 h5 h6]
    rw [tocLoop_succ, hstep]
    rfl

/-- Witness for C7 amended: a pointer-class loop state sitting on 16 zero
bytes (a zero-size sub-record with a blank tag). -/
theorem ardf_C7_amended_witness :
    ({ stW with fid := { data := List.replicate 16 0, pos := 16 },
                reads := stW.reads + 1 } : TocSt).reads ≤ stW.reads + 1 ∧
    (({ data := List.replicate 16 0, pos := 16 } : Fid).pos = stW.fid.pos + 16 ∧
      tocLoop tagFTOC stW (0 + 1) =
        some { stW with fid := { data := List.replicate 16 0, pos := 16 },
                        reads := stW.reads + 1 }) := by
  constructor
  · exact ardf_C7_amended.1 tagFTOC 1 stW _ (by decide)
  · exact ardf_C7_amended.2 tagFTOC 0 0 stW [0, 0, 0, 0] 0
      { data := List.replicate 16 0, pos := 16 } (by decide) (by decide) (by decide)
      (by decide) (by decide) (by decide) (by decide)

/-! ### Padding lemmas for the channel assembler (C4) -/

/-- The seed of a `foldl max` is a lower bound of the result. -/
theorem foldl_max_init (l : List Nat) : ∀ a : Nat, a ≤ l.foldl max a := by
  induction l with
  | nil => intro a; simp
  | cons x xs ih =>
    intro a
    exact le_trans (le_max_left a x) (ih (max a x))

/-- Every member of a list is bounded by a `foldl max` over it. -/
theorem foldl_max_mem (l : List Nat) : ∀ (a x : Nat), x ∈ l → x ≤ l.foldl max a := by
  induction l with
  | nil =>
    intro a x hx
    cases hx
  | cons y ys ih =>
    intro a x hx
    rcases List.mem_cons.mp hx with h | h
    · subst h
      exact le_trans (le_max_right a x) (foldl_max_init ys (max a x))
    · exact ih (max a y) x h

/-- Every member of a list is bounded by its `listMax`. -/
theorem listMax_ge {l : List Nat} {x : Nat} (hx : x ∈ l) : x ≤ listMax l :=
  foldl_max_mem l 0 x hx

/-- The maximum waveform length of a row bounds each waveform. -/
theorem newMax_ge_mem {m : Nat} {row : List (List Int)} {w : List Int} (hw : w ∈ row) :
    w.length ≤ newMax m row := by
  unfold newMax
  have h1 : w.length ≤ listMax (row.map List.length) :=
    listMax_ge (List.mem_map_of_mem List.length hw)
  split <;> omega

/-- The running maximum never decreases. -/
theorem newMax_ge (m : Nat) (row : List (List Int)) : m ≤ newMax m row := by
  unfold newMax
  split <;> omega

/-- A padded cell has exactly the target length when the cell fits. -/
theorem padCell_length {v : List (Option Int)} {m : Nat} (h : v.length ≤ m) :
    (padCell m v).length = m := by
  simp [padCell]
  omega

/-- Re-padding an already padded cell to a larger target is the same as
padding the original cell to it. -/
theorem padCell_padCell {v : List (Option Int)} {k m : Nat} (h1 : v.length ≤ k)
    (h2 : k ≤ m) : padCell m (padCell k v) = padCell m v := by
  unfold padCell
  rw [List.append_assoc, ← List.replicate_add]
  congr 2
  simp only [List.length_append, List.length_replicate]
  omega

/-- The element sitting right after a prefix. -/
theorem getElem?_mid {α : Type} (pre : List α) (c : α) (suf : List α) :
    (pre ++ c :: suf)[pre.length]? = some c := by
  rw [List.getElem?_append_right (le_refl pre.length)]
  simp

/-- Setting the element right after a prefix. -/
theorem set_mid {α : Type} (pre : List α) (c x : α) (suf : List α) :
    (pre ++ c :: suf).set pre.length x = pre ++ x :: suf := by
  induction pre with
  | nil => rfl
  | cons a t ih =>
    simp only [List.cons_append, List.length_cons, List.set_cons_succ, ih]

/-- Unfolding equation of `repadRow` for a positive remaining count. -/
theorem repadRow_succ (m j k : Nat) (row : List (List (Option Int))) :
    repadRow m j (k + 1) row =
      match row[j]? with
      | none => none
      | some c => repadRow m (j + 1) k
          (row.set j (if c.length < m then padCell m c else c)) := rfl

/-- The inner re-padding loop rewrites the first `k` cells after the prefix
with the conditional padding and leaves the rest untouched. -/
theorem repadRow_spec (m : Nat) :
    ∀ (k : Nat) (pre suf : List (List (Option Int))), k ≤ suf.length →
    repadRow m pre.length k (pre ++ suf) =
      some (pre ++ (suf.take k).map (fun c => if c.length < m then padCell m c else c)
        ++ suf.drop k) := by
  intro k
  induction k with
  | zero =>
    intro pre suf h
    simp [repadRow]
  | succ j ih =>
    intro pre suf h
    cases suf with
    | nil => simp at h
    | cons c cs =>
      rw [repadRow_succ, getElem?_mid pre c cs]
      dsimp only
      rw [set_mid]
      have h1 : pre.length + 1 = (pre ++ [if c.length < m then padCell m c else c]).length := by
        simp
      have h2 : pre ++ (if c.length < m then padCell m c else c) :: cs =
          (pre ++ [if c.length < m then padCell m c else c]) ++ cs := by
        simp
      rw [h1, h2, ih _ cs (by simpa using h)]
      simp

/-- Unfolding equation of `repadRows` for a positive remaining count. -/
theorem repadRows_succ (points m i k : Nat) (rows : List (List (List (Option Int)))) :
    repadRows points m i (k + 1) rows =
      match rows[i]? with
      | none => none
      | some row =>
        match repadRow m 0 points row with
        | none => none
        | some row2 => repadRows points m (i + 1) k (rows.set i row2) := rfl

/-- The outer re-padding loop maps the conditional padding over the first `k`
rows after the prefix (each of which must hold `points` cells). -/
theorem repadRows_spec (points m : Nat) :
    ∀ (k : Nat) (pre suf : List (List (List (Option Int)))),
      k ≤ suf.length → (∀ row ∈ suf.take k, row.length = points) →
    repadRows points m pre.length k (pre ++ suf) =
      some (pre ++ (suf.take k).map (fun row =>
        row.map (fun c => if c.length < m then padCell m c else c)) ++ suf.drop k) := by
  intro k
  induction k with
  | zero =>
    intro pre suf h hl
    simp [repadRows]
  | succ j ih =>
    intro pre suf h hl
    cases suf with
    | nil => simp at h
    | cons row rows =>
      have hlen : row.length = points := hl row (by simp)
      rw [repadRows_succ, getElem?_mid pre row rows]
      dsimp only
      have hin : repadRow m 0 points row =
          some (row.map (fun c => if c.length < m then padCell m c else c)) := by
        have hr := repadRow_spec m points ([] : List (List (Option Int))) row (by omega)
        simpa [← hlen] using hr
      rw [hin]
      dsimp only
      rw [set_mid]
      have h1 : pre.length + 1 =
          (pre ++ [row.map (fun c => if c.length < m then padCell m c else c)]).length := by
        simp
      have h2 : pre ++ (row.map (fun c => if c.length < m then padCell m c else c)) :: rows =
          (pre ++ [row.map (fun c => if c.length < m then padCell m c else c)]) ++ rows := by
        simp
      rw [h1, h2, ih _ rows (by simpa using h)
        (fun r hr => hl r (by simp only [List.take_succ_cons, List.mem_cons]; exact Or.inr hr))]
      simp

/-- Unfolding equation of `collectRows` for a positive remaining count. -/
theorem collectRows_succ (fetch : Nat → Option (List (List Int))) (p k m : Nat)
    (acc : List (List (List (Option Int)))) :
    collectRows fetch p (k + 1) m acc =
      match fetch p with
      | none => none
      | some row =>
        if row = [] then none
        else collectRows fetch (p + 1) k (newMax m row)
          (acc ++ [padRow (newMax m row) row]) := rfl

/-- What the collection loop guarantees about its output: the maximum only
grows, exactly one row is appended per iteration, the accumulator is a
prefix of the result, and each new row is the fetched row padded to the
running maximum in force when it was collected (a value between that row's
own maximum length and the final maximum). -/
theorem collectRows_spec (fetch : Nat → Option (List (List Int))) :
    ∀ (k p m0 : Nat) (acc rows : List (List (List (Option Int)))) (m : Nat),
    collectRows fetch p k m0 acc = some (rows, m) →
    m0 ≤ m ∧ rows.length = acc.length + k ∧ rows.take acc.length = acc ∧
    (∀ j, j < k → ∃ r mj, fetch (p + j) = some r ∧ mj ≤ m ∧
      (∀ w ∈ r, w.length ≤ mj) ∧
      rows[acc.length + j]? = some (padRow mj r)) := by
  intro k
  induction k with
  | zero =>
    intro p m0 acc rows m h
    cases h
    refine ⟨le_refl _, by simp, by simp, fun j hj => absurd hj (by omega)⟩
  | succ kk ih =>
    intro p m0 acc rows m h
    rw [collectRows_succ] at h
    cases hf : fetch p with
    | none =>
      rw [hf] at h
      cases h
    | some row =>
      rw [hf] at h
      dsimp only at h
      split at h
      · cases h
      · rename_i hrow
        obtain ⟨hm1, hlen, htake, hidx⟩ := ih (p + 1) _ _ rows m h
        simp only [List.length_append, List.length_cons, List.length_nil, Nat.zero_add]
          at hlen htake hidx
        have htake0 : rows.take acc.length = acc := by
          have h1 : rows.take acc.length = (rows.take (acc.length + 1)).take acc.length := by
            rw [List.take_take]
            congr 1
            omega
          rw [h1, htake]
          exact List.take_left acc _
        refine ⟨le_trans (newMax_ge m0 row) hm1, by omega, htake0, ?_⟩
        intro j hj
        cases j with
        | zero =>
          refine ⟨row, newMax m0 row, by simpa using hf, hm1, fun w hw => newMax_ge_mem hw, ?_⟩
          have hg : (rows.take (acc.length + 1))[acc.length]? = rows[acc.length]? := by
            rw [List.getElem?_take]
            exact if_pos (by omega)
          rw [Nat.add_zero, ← hg, htake]
          exact getElem?_mid acc _ []
        | succ jj =>
          obtain ⟨r, mj, hfj, hmj, hwl, hrj⟩ := hidx jj (by omega)
          refine ⟨r, mj, ?_, hmj, hwl, ?_⟩
          · rw [show p + (jj + 1) = p + 1 + jj by omega]
            exact hfj
          · rw [show acc.length + (jj + 1) = acc.length + 1 + jj by omega]
            exact hrj

/-- C4 amended: for a *square* grid (`lines = points = n`, the only shape on
which the mismatched collection/re-pad loop bounds line up), every completing
channel/direction assembly returns exactly `n` rows in which every waveform
is its original sample list right-padded with NaN to exactly the final
running maximum `m`; `m` bounds every observed waveform length and never
shrinks below its incoming value — no sample is truncated or dropped. -/
theorem ardf_C4_amended (n m0 : Nat) (fetch : Nat → Option (List (List Int)))
    (rows : List (List (List (Option Int)))) (m : Nat)
    (hrow : ∀ p r, fetch p = some r → r.length = n)
    (h : assembleDir n n fetch m0 = some (rows, m)) :
    rows.length = n ∧ m0 ≤ m ∧
    ∀ p, p < n → ∃ r, fetch p = some r ∧ (∀ w ∈ r, w.length ≤ m) ∧
      rows[p]? = some (r.map (fun w => padCell m (w.map some))) := by
  unfold assembleDir at h
  cases hc : collectRows fetch 0 n m0 [] with
  | none =>
    rw [hc] at h
    cases h
  | some pr =>
    rw [hc] at h
    rcases pr with ⟨rows1, m1⟩
    dsimp only at h
    cases hr : repadRows n m1 0 n rows1 with
    | none =>
      rw [hr] at h
      cases h
    | some rows2 =>
      rw [hr] at h
      cases h
      obtain ⟨hm0, hlen, _, hidx⟩ := collectRows_spec fetch n 0 m0 [] rows1 m hc
      simp only [List.length_nil, Nat.zero_add] at hlen hidx
      have hrl : ∀ row ∈ rows1.take n, row.length = n := by
        intro row hmem
        rw [List.take_of_length_le (le_of_eq hlen)] at hmem
        obtain ⟨j, hj⟩ := List.mem_iff_getElem?.mp hmem
        have hjlt : j < rows1.length := (List.getElem?_eq_some.mp hj).1
        obtain ⟨r, mj, hfj, hmj, hwl, hrj⟩ := hidx j (by omega)
        rw [hj] at hrj
        cases hrj
        simp [padRow, hrow j r hfj]
      have hspec := repadRows_spec n m n ([] : List (List (List (Option Int)))) rows1
        (le_of_eq hlen.symm) hrl
      simp only [List.length_nil, List.nil_append] at hspec
      rw [hspec] at hr
      cases hr
      have htk : rows1.take n = rows1 := List.take_of_length_le (le_of_eq hlen)
      have hdp : rows1.drop n = [] := List.drop_eq_nil_of_le (le_of_eq hlen)
      refine ⟨by simp [htk, hdp, hlen], hm0, ?_⟩
      intro p hp
      obtain ⟨r, mj, hfj, hmj, hwl, hrj⟩ := hidx p (by omega)
      refine ⟨r, hfj, fun w hw => le_trans (hwl w hw) hmj, ?_⟩
      have hmap : ((rows1.take n).map (fun row =>
          row.map (fun c => if c.length < m then padCell m c else c)))[p]? =
          (rows1[p]?).map (fun row =>
            row.map (fun c => if c.length < m then padCell m c else c)) := by
        rw [htk, List.getElem?_map]
      simp only [List.nil_append, List.append_nil, hdp, hmap, hrj]
      simp only [padRow, Option.map_some', List.map_map]
      congr 1
      apply List.map_congr_left
      intro w hw
      have hwm : (w.map some).length ≤ mj := by
        rw [List.length_map]
        exact hwl w hw
      have hplen : (padCell mj (w.map some)).length = mj := padCell_length hwm
      show (if (padCell mj (w.map some)).length < m then padCell m (padCell mj (w.map some))
        else padCell mj (w.map some)) = padCell m (w.map some)
      rw [hplen]
      rcases lt_or_eq_of_le hmj with hlt | heq
      · rw [if_pos hlt]
        exact padCell_padCell hwm hmj
      · rw [if_neg (by omega)]
        rw [heq]

/-- Witness for C4 amended: a 1×1 square grid with a single waveform `[7]`. -/
theorem ardf_C4_amended_witness :
    ([[[some (7 : Int)]]] : List (List (List (Option Int)))).length = 1 ∧ 0 ≤ 1 ∧
    ∀ p, p < 1 → ∃ r, fetchW p = some r ∧ (∀ w ∈ r, w.length ≤ 1) ∧
      ([[[some (7 : Int)]]] : List (List (List (Option Int))))[p]? =
        some (r.map (fun w => padCell 1 (w.map some))) := by
  refine ardf_C4_amended 1 0 fetchW [[[some 7]]] 1 ?_ (by decide)
  intro p r h
  unfold fetchW at h
  split at h
  · cases h
    rfl
  · cases h
